import Mathlib

/-!
Verification of the NovaShell core (src/src/shell/mod.rs) against its
natural-language specification. The shell's own code is embedded as
executable Lean definitions; external collaborators (the pipeline parser,
the builtin-command table, the filesystem, the terminal) are parameters,
and the repository modules that are not part of the provided sources
(`printer`, `keycode`, `command`) are modelled from the specification and
marked as such in their doc comments.
-/

/-! ## UTF-8: the semantics of Rust `String::from_utf8` / `str::as_bytes` -/

/-- A UTF-8 continuation byte, `0x80..=0xBF`. -/
def isCont (b : UInt8) : Bool := 0x80 ≤ b && b ≤ 0xBF

/-- Decode a byte list as UTF-8, the validation performed by Rust
`String::from_utf8`: `none` is the `Err` case on which the shell's
`.unwrap()` calls panic. -/
def decodeUtf8 : List UInt8 → Option (List Char)
  | [] => some []
  | b :: rest =>
    if b ≤ 0x7F then
      (decodeUtf8 rest).map (fun cs => Char.ofNat b.toNat :: cs)
    else if 0xC2 ≤ b && b ≤ 0xDF then
      match rest with
      | b2 :: rest2 =>
        if isCont b2 then
          (decodeUtf8 rest2).map
            (fun cs => Char.ofNat ((b.toNat - 0xC0) * 64 + (b2.toNat - 0x80)) :: cs)
        else none
      | [] => none
    else if 0xE0 ≤ b && b ≤ 0xEF then
      match rest with
      | b2 :: b3 :: rest3 =>
        let lo2 : UInt8 := if b = 0xE0 then 0xA0 else 0x80
        let hi2 : UInt8 := if b = 0xED then 0x9F else 0xBF
        if lo2 ≤ b2 && b2 ≤ hi2 && isCont b3 then
          (decodeUtf8 rest3).map
            (fun cs => Char.ofNat ((b.toNat - 0xE0) * 4096 +
              (b2.toNat - 0x80) * 64 + (b3.toNat - 0x80)) :: cs)
        else none
      | _ => none
    else if 0xF0 ≤ b && b ≤ 0xF4 then
      match rest with
      | b2 :: b3 :: b4 :: rest4 =>
        let lo2 : UInt8 := if b = 0xF0 then 0x90 else 0x80
        let hi2 : UInt8 := if b = 0xF4 then 0x8F else 0xBF
        if lo2 ≤ b2 && b2 ≤ hi2 && isCont b3 && isCont b4 then
          (decodeUtf8 rest4).map
            (fun cs => Char.ofNat ((b.toNat - 0xF0) * 262144 +
              (b2.toNat - 0x80) * 4096 + (b3.toNat - 0x80) * 64 +
              (b4.toNat - 0x80)) :: cs)
        else none
      | _ => none
    else none

/-- Encode one character as UTF-8 bytes, the semantics of Rust
`str::as_bytes` on each `char`. -/
def utf8EncodeChar (c : Char) : List UInt8 :=
  let n := c.toNat
  if n < 0x80 then [UInt8.ofNat n]
  else if n < 0x800 then
    [UInt8.ofNat (0xC0 + n / 64), UInt8.ofNat (0x80 + n % 64)]
  else if n < 0x10000 then
    [UInt8.ofNat (0xE0 + n / 4096), UInt8.ofNat (0x80 + n / 64 % 64),
     UInt8.ofNat (0x80 + n % 64)]
  else
    [UInt8.ofNat (0xF0 + n / 262144), UInt8.ofNat (0x80 + n / 4096 % 64),
     UInt8.ofNat (0x80 + n / 64 % 64), UInt8.ofNat (0x80 + n % 64)]

/-- UTF-8 bytes of a character list (`String::as_bytes`). -/
def utf8Bytes (cs : List Char) : List UInt8 := (cs.map utf8EncodeChar).flatten

/-- Byte length of a character list encoded as UTF-8 (Rust `String::len`). -/
def utf8Len (cs : List Char) : Nat := (utf8Bytes cs).length

/-! ## The completion tokenizer (`Shell::readline`, Tab branch) -/

/-- State of the quote-aware scanner of the Tab-completion branch
(src/src/shell/mod.rs:273-302): the emitted fragments, the pending stack,
and `left_quote` (`' '` when no quote is open). -/
structure TokSt where
  fragments : List (List Char)
  stack : List Char
  leftQuote : Char
deriving DecidableEq

/-- One character step of the completion tokenizer, embedded from the
`for ch in iter` loop of src/src/shell/mod.rs:277-302: inside an open
quote every character (spaces included) is pushed and the matching close
quote closes the span; outside quotes a quote character opens a span, a
space emits the pending non-empty stack as a fragment, and any other
character is pushed. -/
def tokStep (s : TokSt) (ch : Char) : TokSt :=
  if s.leftQuote ≠ ' ' then
    if ch == s.leftQuote then ⟨s.fragments, s.stack ++ [ch], ' '⟩
    else ⟨s.fragments, s.stack ++ [ch], s.leftQuote⟩
  else if ch == '\'' || ch == '"' then ⟨s.fragments, s.stack ++ [ch], ch⟩
  else if ch == ' ' then
    if s.stack.isEmpty then s else ⟨s.fragments ++ [s.stack], [], ' '⟩
  else ⟨s.fragments, s.stack ++ [ch], s.leftQuote⟩

/-- Run the completion tokenizer over the characters left of the cursor,
returning the emitted fragments and the final (possibly pending) stack.
`Shell::readline` pushes a non-empty final stack as the last fragment and
`return 1`s when it is empty (src/src/shell/mod.rs:303-309). -/
def tokenizeChars (cs : List Char) : List (List Char) × List Char :=
  let r := cs.foldl tokStep ⟨[], [], ' '⟩
  (r.fragments, r.stack)

/-! ## Completion candidate generation -/

/-- `charsLead a b`: the character list `a` is an initial segment of `b`
(the semantics of Rust `str::starts_with` on strings). -/
def charsLead : List Char → List Char → Bool
  | [], _ => true
  | _ :: _, [] => false
  | a :: as, b :: bs => a == b && charsLead as bs

/-- Embeds `complete_command` (src/src/shell/mod.rs:399-407). The builtin
command table (the repository's `command` module, not under the provided
sources) is passed as the list of its registered command names; candidates
are the names the typed fragment is a prefix of, and the directory prefix
returned is empty. -/
def complete_command (table : List String) (command : String) :
    String × List String :=
  ("", table.filter (fun cmd => charsLead command.data cmd.data))

/-- Split a path at its last `/` as src/src/shell/mod.rs:413-418 does:
the directory part keeps the slash, and a path with no slash has an empty
directory part. -/
def splitLastSlash : List Char → List Char × List Char
  | [] => ([], [])
  | c :: rest =>
    let r := splitLastSlash rest
    if r.1.isEmpty then
      if c == '/' then ([c], rest) else ([], c :: r.2)
    else (c :: r.1, r.2)

/-- Embeds `complete_path` (src/src/shell/mod.rs:409-436). The filesystem
is passed as `readDir`, giving a directory's entries as (name, is-dir)
pairs, `none` when `fs::read_dir` fails. A matching entry containing a
space is single-quoted and a directory entry gets a trailing slash. -/
def complete_path (readDir : String → Option (List (String × Bool)))
    (incomplete_path : String) : String × List String :=
  let sp := splitLastSlash incomplete_path.toList
  let dir := String.mk sp.1
  match readDir (if sp.1.isEmpty then "." else dir) with
  | none => (dir, [])
  | some entries =>
    (dir, entries.filterMap (fun e =>
      if charsLead sp.2 e.1.data then
        let q := if e.1.data.contains ' ' then "\'" ++ e.1 ++ "\'" else e.1
        some (if e.2 then q ++ "/" else q)
      else none))

/-! ## History recording (`Shell::exec` / `Shell::write_commands`) -/

/-- `listLeads a b`: the list `a` is an initial segment of `b` (the
semantics of Rust slice `starts_with`). -/
def listLeads : List UInt8 → List UInt8 → Bool
  | [], _ => true
  | _ :: _, [] => false
  | a :: as, b :: bs => a == b && listLeads as bs

/-- The recording condition of src/src/shell/mod.rs:95-104: the submitted
bytes are non-empty, do not start with a space byte
(`starts_with(&[b' '])`), and differ from the last history entry
(`last().unwrap_or(empty)`). -/
def should_record (hist : List (List UInt8)) (cmd : List UInt8) : Bool :=
  !cmd.isEmpty && !(listLeads [32] cmd) && !(cmd == hist.getLast?.getD [])

/-- Embeds the history-recording step of `Shell::exec`
(src/src/shell/mod.rs:93-108) together with `Shell::write_commands`
(src/src/shell/mod.rs:170-178). The state is (history entries, history
file bytes); when the condition holds the line is pushed and the file gets
the bytes plus an LF terminator. -/
def recordStep (st : List (List UInt8) × List UInt8) (cmd : List UInt8) :
    List (List UInt8) × List UInt8 :=
  if should_record st.1 cmd then (st.1 ++ [cmd], st.2 ++ cmd ++ [10]) else st

/-! ## Pipelines, line execution, the backend worker -/

/-- A parsed pipeline as the shell consumes it (spec §3, external): its
identity, its `backend()` flag, and the child handles its `execute`
spawns. -/
structure Pipeline where
  pid : Nat
  backend : Bool
  children : List Nat
deriving DecidableEq

/-- Outcome of `Shell::exec_commands_in_line`: the two `.unwrap()` panics
(invalid UTF-8 at src/src/shell/mod.rs:119, a parse error at line 120), or
normal execution with the request sent to the backend thread and the
foreground pipelines run in order. -/
inductive ExecResult
  | panicUtf8 : ExecResult
  | panicParse : ExecResult
  | executed : String × List Pipeline → List Pipeline → ExecResult
deriving DecidableEq

/-- Embeds `Shell::exec_commands_in_line` (src/src/shell/mod.rs:117-150):
`String::from_utf8(..).unwrap()`, `Parser::parse(..).unwrap()`, partition
into backend and foreground pipelines preserving order, send
`(current_dir, backend)` to the worker, run the foreground pipelines. The
external parser is the parameter `parse`. -/
def exec_commands_in_line (parse : String → Except Unit (List Pipeline))
    (cwd : String) (cmd : List UInt8) : ExecResult :=
  match decodeUtf8 cmd with
  | none => .panicUtf8
  | some chars =>
    match parse (String.mk chars) with
    | .error _ => .panicParse
    | .ok pipelines =>
      .executed (cwd, pipelines.filter (fun p => p.backend))
        (pipelines.filter (fun p => !p.backend))

/-- Outcome of one iteration of the `Shell::exec` read loop
(src/src/shell/mod.rs:85-114) after a line was submitted: the loop reaches
the next prompt (with or without executing), or a panic unwinds the
session. Each outcome carries the (history, history file) state after the
recording step, which precedes parsing. -/
inductive IterResult
  | promptOnly : List (List UInt8) × List UInt8 → IterResult
  | prompt : List (List UInt8) × List UInt8 → String × List Pipeline →
      List Pipeline → IterResult
  | panicUtf8 : List (List UInt8) × List UInt8 → IterResult
  | panicParse : List (List UInt8) × List UInt8 → IterResult
deriving DecidableEq

/-- Embeds the body of the `Shell::exec` loop for one submitted line
(src/src/shell/mod.rs:93-113): record the line into history, then execute
it unless it is all spaces. -/
def execIteration (parse : String → Except Unit (List Pipeline))
    (cwd : String) (st : List (List UInt8) × List UInt8)
    (cmd : List UInt8) : IterResult :=
  let st2 := recordStep st cmd
  if cmd.all (fun b => b == 32) then .promptOnly st2
  else
    match exec_commands_in_line parse cwd cmd with
    | .panicUtf8 => .panicUtf8 st2
    | .panicParse => .panicParse st2
    | .executed sent fg => .prompt st2 sent fg

/-- Whether the editor loop survives an iteration and reaches the next
prompt (a panic terminates the session). -/
def sessionContinues : IterResult → Bool
  | .promptOnly _ => true
  | .prompt _ _ _ => true
  | .panicUtf8 _ => false
  | .panicParse _ => false

/-- Status of the backend worker thread. -/
inductive WStatus
  | running
  | panicked
deriving DecidableEq

/-- State of the backend worker: the requests still in its channel, the
child handles it has sent back, and whether the thread has panicked. -/
structure WorkerState where
  inbox : List (String × List Pipeline)
  outbox : List Nat
  status : WStatus
deriving DecidableEq

/-- Embeds one iteration of the backend worker loop built in
`Shell::create_backend_thread` (src/src/shell/mod.rs:59-67): receive a
request, `std::env::set_current_dir(dir).expect(..)` — which panics the
thread when the change of directory fails — then execute every pipeline of
the request, sending each spawned child on the response channel. `chdirOk`
abstracts whether `set_current_dir` succeeds for a directory. A panicked
thread takes no further steps. -/
def workerStep (chdirOk : String → Bool) (s : WorkerState) : WorkerState :=
  match s.status with
  | .panicked => s
  | .running =>
    match s.inbox with
    | [] => s
    | req :: rest =>
      if chdirOk req.1 then
        ⟨rest, s.outbox ++ (req.2.map Pipeline.children).flatten, .running⟩
      else ⟨rest, s.outbox, .panicked⟩

/-- Iterate the backend worker loop a given number of times. -/
def workerRunSteps (chdirOk : String → Bool) : Nat → WorkerState → WorkerState
  | 0, s => s
  | n + 1, s => workerRunSteps chdirOk n (workerStep chdirOk s)

/-! ## Key decoding (`keycode` module, modelled from spec §4.1) -/

/-- Modelled from the spec: the `SpecialKeycode` classification of the
repository's `keycode` module (not among the provided sources). Per §4.1
the recognized controls are Line-Feed and Carriage-Return (submit), the
backspace byte, the tab byte, and the escape byte 27. -/
inductive SpecialKeycode
  | LF
  | CR
  | BackSpace
  | Tab
  | ESC
deriving DecidableEq

/-- Modelled from the spec: `SpecialKeycode::try_from` of the `keycode`
module — classify one input byte as a recognized control, or fail. -/
def specialOf (b : UInt8) : Option SpecialKeycode :=
  if b = 10 then some .LF
  else if b = 13 then some .CR
  else if b = 8 then some .BackSpace
  else if b = 9 then some .Tab
  else if b = 27 then some .ESC
  else none

/-- Modelled from the spec: the resolved function keys of the `keycode`
module (§4.1: Up, Down, Left, Right, Home, End, Delete). -/
inductive FunctionKeySuffix
  | Up
  | Down
  | Left
  | Right
  | Home
  | End
  | Delete
deriving DecidableEq

/-- Modelled from the spec: the known function-key suffix byte sequences
following an escape byte (glossary: the ANSI sequences `[A` `[B` `[C` `[D`
`[H` `[F` `[3~` for the seven keys of §4.1). -/
def suffixSeqs : List (List UInt8) :=
  [[91, 65], [91, 66], [91, 67], [91, 68], [91, 72], [91, 70], [91, 51, 126]]

/-- Modelled from the spec: `FunctionKeySuffix::should_read_more` of the
`keycode` module — §4.1: keep reading "while a predicate 'could still
match a known function-key suffix' holds over the bytes read so far; once
the predicate is false (either a complete known suffix was matched or no
known suffix can match), resolve". -/
def should_read_more (keys : List UInt8) : Bool :=
  !(suffixSeqs.contains keys) && suffixSeqs.any (fun s => listLeads keys s)

/-- Modelled from the spec: `FunctionKeySuffix::try_from` of the `keycode`
module — resolve a completed suffix to its function key, `none` (Unknown)
when it matches no known suffix. -/
def tryFromSuffix (keys : List UInt8) : Option FunctionKeySuffix :=
  if keys = [91, 65] then some .Up
  else if keys = [91, 66] then some .Down
  else if keys = [91, 67] then some .Right
  else if keys = [91, 68] then some .Left
  else if keys = [91, 72] then some .Home
  else if keys = [91, 70] then some .End
  else if keys = [91, 51, 126] then some .Delete
  else none

/-- The escape sub-read loop of `Shell::handle_funckey`
(src/src/shell/mod.rs:190-195): read bytes while `should_read_more` holds
over the bytes so far. The available input is a finite byte list (`none`
when the loop would block for more input); the fuel argument bounds the
iteration and is provably irrelevant from 4 up, the bound the suffix table
imposes. -/
def readSuffixAux : Nat → List UInt8 → List UInt8 →
    Option (List UInt8 × List UInt8)
  | 0, keys, input =>
    if should_read_more keys then none else some (keys, input)
  | fuel + 1, keys, input =>
    if should_read_more keys then
      match input with
      | [] => none
      | b :: rest => readSuffixAux fuel (keys ++ [b]) rest
    else some (keys, input)

/-! ## The line editor state (`Printer`, modelled from spec §4.2) -/

/-- The editor state of `Shell::readline`. `Rc<RefCell<Vec<u8>>>` buffers
are modelled as a heap: `store` holds the cells, `bufRef` is the cell the
printer's live buffer is bound to, and `history` holds the cells of
`history_commands` — so the sentinel pushed by `readline` genuinely
aliases the live buffer, and `change_line` rebinds the live buffer to a
history cell. `commandIndex` is the recall index of `Shell::readline` /
`Shell::handle_funckey`. -/
structure RState where
  store : List (List UInt8)
  bufRef : Nat
  cursor : Nat
  history : List Nat
  commandIndex : Nat
deriving DecidableEq

/-- The content of the live edit buffer. -/
def bufGet (st : RState) : List UInt8 := st.store.getD st.bufRef []

/-- Replace the content of the live edit buffer's cell. -/
def setBuf (st : RState) (b : List UInt8) : RState :=
  { st with store := st.store.set st.bufRef b }

/-- Modelled from the spec: `Printer::insert` of the `printer` module (not
among the provided sources), §4.2 — insert bytes at the cursor, shifting
the suffix right and advancing the cursor by the inserted length. -/
def printerInsert (st : RState) (bytes : List UInt8) : RState :=
  let b := bufGet st
  { setBuf st (b.take st.cursor ++ bytes ++ b.drop st.cursor) with
      cursor := st.cursor + bytes.length }

/-- Modelled from the spec: `Printer::backspace`, §4.2 — delete one byte
before the cursor and decrement the cursor; no operation may move the
cursor out of bounds, so at column 0 nothing happens. -/
def printerBackspace (st : RState) : RState :=
  if st.cursor = 0 then st
  else
    let b := bufGet st
    { setBuf st (b.take (st.cursor - 1) ++ b.drop st.cursor) with
        cursor := st.cursor - 1 }

/-- Modelled from the spec: `Printer::delete(count)`, §4.2 — delete
forward from the cursor, shifting the suffix left, cursor unchanged. -/
def printerDelete (st : RState) (n : Nat) : RState :=
  let b := bufGet st
  setBuf st (b.take st.cursor ++ b.drop (st.cursor + n))

/-- Modelled from the spec: `Printer::cursor_left(n)`, §4.2, bounded
below by 0. -/
def cursorLeftN (st : RState) (n : Nat) : RState :=
  { st with cursor := st.cursor - n }

/-- Modelled from the spec: `Printer::cursor_right(n)`, §4.2, bounded
above by the buffer length. -/
def cursorRightN (st : RState) (n : Nat) : RState :=
  { st with cursor := min (st.cursor + n) (bufGet st).length }

/-- Modelled from the spec: `Printer::home`, §4.2. -/
def printerHome (st : RState) : RState := { st with cursor := 0 }

/-- Modelled from the spec: `Printer::end`, §4.2. -/
def printerEnd (st : RState) : RState :=
  { st with cursor := (bufGet st).length }

/-- Modelled from the spec: `Printer::change_line`, §4.2 — rebind the live
buffer to the given shared cell wholesale and reposition the cursor to its
end. -/
def changeLine (st : RState) (r : Nat) : RState :=
  { st with bufRef := r, cursor := (st.store.getD r []).length }

/-! ## `Shell::readline` and `Shell::handle_funckey` -/

/-- Embeds the function-key dispatch of `Shell::handle_funckey`
(src/src/shell/mod.rs:203-240): Up/Down move the recall index inside its
guards and rebind the buffer to the history cell at the new index,
Left/Right move the cursor inside bounds, Home/End jump, Delete deletes
one byte forward. -/
def applyFunckey (st : RState) : FunctionKeySuffix → RState
  | .Up =>
    if 0 < st.commandIndex then
      let i := st.commandIndex - 1
      changeLine { st with commandIndex := i } (st.history.getD i 0)
    else st
  | .Down =>
    if st.commandIndex < st.history.length - 1 then
      let i := st.commandIndex + 1
      changeLine { st with commandIndex := i } (st.history.getD i 0)
    else st
  | .Left => if 0 < st.cursor then cursorLeftN st 1 else st
  | .Right =>
    if st.cursor < (bufGet st).length then cursorRightN st 1 else st
  | .Home => printerHome st
  | .End => printerEnd st
  | .Delete => printerDelete st 1

/-- Result of one dispatch of the `Shell::readline` loop body: continue
looping with a new state and remaining input, return from `readline` with
a value, panic (an `.unwrap()` failed), or block for more input. -/
inductive RLStep
  | cont : RState → List UInt8 → RLStep
  | ret : Nat → RState → List UInt8 → RLStep
  | panic : RLStep
  | blocked : RLStep
deriving DecidableEq

/-- Embeds `Shell::handle_funckey` (src/src/shell/mod.rs:190-241): run the
escape sub-read, resolve the collected suffix with
`FunctionKeySuffix::try_from`, return with no effect when it resolves to
nothing, otherwise apply the function key. -/
def handleFunckeyStep (st : RState) (input : List UInt8) : RLStep :=
  match readSuffixAux 4 [] input with
  | none => .blocked
  | some kr =>
    match tryFromSuffix kr.1 with
    | none => .cont st kr.2
    | some k => .cont (applyFunckey st k) kr.2

/-- Embeds the Tab branch of `Shell::readline`
(src/src/shell/mod.rs:265-353): clone the buffer up to the cursor,
`String::from_utf8(..).unwrap()` (panic on invalid UTF-8), skip when the
prefix is empty or all spaces, tokenize, `return 1` when the final stack
is empty, otherwise strip quote characters from the last fragment and
complete it — against the command table when it is the first token, else
against the filesystem — then resolve: one candidate replaces the original
fragment in place, several move the cursor to the end and list, zero do
nothing. -/
def tabStep (table : List String)
    (readDir : String → Option (List (String × Bool)))
    (st : RState) (rest : List UInt8) : RLStep :=
  let pre := (bufGet st).take st.cursor
  match decodeUtf8 pre with
  | none => .panic
  | some chars =>
    if pre.isEmpty || pre.all (fun b => b == 32) then .cont st rest
    else
      let r := tokenizeChars chars
      if r.2.isEmpty then .ret 1 st rest
      else
        let fragments := r.1 ++ [r.2]
        let oldFragment := r.2
        let target := String.mk
          (oldFragment.filter (fun c => !(c == '\'') && !(c == '"')))
        let pc :=
          if fragments.length < 2 then complete_command table target
          else complete_path readDir target
        match pc.2 with
        | [cand] =>
          let st1 := cursorLeftN st (utf8Len oldFragment)
          let st2 := printerDelete st1 (utf8Len oldFragment)
          .cont (printerInsert st2 (utf8Bytes (pc.1.toList ++ cand.toList)))
            rest
        | [] => .cont st rest
        | _ :: _ :: _ => .cont (printerEnd st) rest

/-- Embeds the entry of `Shell::readline` (src/src/shell/mod.rs:243-246):
push the live buffer cell itself — the sentinel aliasing the in-progress
line — onto `history_commands`, and start `command_index` at that last
slot. -/
def readlineInit (st : RState) : RState :=
  { st with history := st.history ++ [st.bufRef],
            commandIndex := st.history.length }

/-- Embeds one iteration of the `Shell::readline` loop
(src/src/shell/mod.rs:247-367): read a byte and classify it with
`SpecialKeycode::try_from`: ESC runs the function-key sub-read, LF or CR
pops the sentinel and returns 1, BackSpace and Tab edit, bytes 1..=31 are
discarded, and any other byte is inserted at the cursor. -/
def readlineStep (table : List String)
    (readDir : String → Option (List (String × Bool)))
    (st : RState) : List UInt8 → RLStep
  | [] => .blocked
  | key :: rest =>
    match specialOf key with
    | some .ESC => handleFunckeyStep st rest
    | some .LF => .ret 1 { st with history := st.history.dropLast } rest
    | some .CR => .ret 1 { st with history := st.history.dropLast } rest
    | some .BackSpace => .cont (printerBackspace st) rest
    | some .Tab => tabStep table readDir st rest
    | none =>
      if 1 ≤ key && key ≤ 31 then .cont st rest
      else .cont (printerInsert st [key]) rest

/-- Drive the `Shell::readline` loop over the available input with the
given fuel: `some (value, state, leftover)` when `readline` returns,
`none` when it blocks, panics or runs out of fuel. -/
def readlineRun (table : List String)
    (readDir : String → Option (List (String × Bool))) :
    Nat → RState → List UInt8 → Option (Nat × RState × List UInt8)
  | 0, _, _ => none
  | fuel + 1, st, input =>
    match readlineStep table readDir st input with
    | .ret n s r => some (n, s, r)
    | .cont s r => readlineRun table readDir fuel s r
    | .panic => none
    | .blocked => none

/-! ## Theorems -/

/-- C5: a submitted line is appended to the history store — and its bytes
plus an LF terminator to the history file — exactly when it is non-empty,
does not start with a space byte, and differs from the immediately
preceding history entry; recording the same line again immediately is a
no-op (so two successive submissions of a non-blank line store it once),
and a line beginning with a space byte is never appended. -/
theorem C5_history_record_iff (hist : List (List UInt8)) (file : List UInt8)
    (cmd : List UInt8) :
    (recordStep (hist, file) cmd = (hist ++ [cmd], file ++ cmd ++ [10])
      ↔ cmd ≠ [] ∧ cmd.head? ≠ some 32 ∧ hist.getLast? ≠ some cmd)
    ∧ recordStep (recordStep (hist, file) cmd) cmd = recordStep (hist, file) cmd
    ∧ (∀ bs : List UInt8, recordStep (hist, file) (32 :: bs) = (hist, file)) := by
  have hrec : should_record hist cmd = true ↔
      (cmd ≠ [] ∧ cmd.head? ≠ some 32 ∧ hist.getLast? ≠ some cmd) := by
    unfold should_record
    cases cmd with
    | nil => simp
    | cons b bs =>
      cases hl : hist.getLast? with
      | none =>
        simp [hl, listLeads]
        exact ne_comm
      | some p =>
        simp [hl, listLeads]
        constructor
        · rintro ⟨h1, h2⟩
          exact ⟨fun he => h1 he.symm, fun he => h2 he.symm⟩
        · rintro ⟨h1, h2⟩
          exact ⟨fun he => h1 he.symm, fun he => h2 he.symm⟩
  have hpos : should_record hist cmd = true →
      recordStep (hist, file) cmd = (hist ++ [cmd], file ++ cmd ++ [10]) := by
    intro hs
    simp [recordStep, hs]
  have hneg : should_record hist cmd = false →
      recordStep (hist, file) cmd = (hist, file) := by
    intro hs
    simp [recordStep, hs]
  refine ⟨⟨fun h => ?_, fun hc => ?_⟩, ?_, fun bs => ?_⟩
  · by_cases hs : should_record hist cmd = true
    · exact hrec.mp hs
    · rw [hneg (by simpa using hs)] at h
      have h1 := congrArg Prod.fst h
      simp at h1
  · exact hpos (hrec.mpr hc)
  · by_cases hs : should_record hist cmd = true
    · have h2 : should_record (hist ++ [cmd]) cmd = false := by
        unfold should_record
        simp [List.getLast?_concat]
      rw [hpos hs]
      simp [recordStep, h2]
    · rw [hneg (by simpa using hs)]
      rw [hneg (by simpa using hs)]
  · have h3 : should_record hist (32 :: bs) = false := by
      unfold should_record
      simp [listLeads]
    simp [recordStep, h3]

/-- C5 instantiated: with history `hi`, submitting `ls` appends the line
to the store and its bytes plus LF to the file. -/
theorem C5_history_record_witness :
    recordStep ([[104, 105]], [104, 105, 10]) [108, 115]
      = ([[104, 105], [108, 115]], [104, 105, 10, 108, 115, 10]) :=
  ((C5_history_record_iff [[104, 105]] [104, 105, 10] [108, 115]).1).mpr
    ⟨by decide, by decide, by decide⟩

/-- C7: the completion tokenizer does not split on spaces inside an open
quoted span: scanning the line `echo "a b" c` up to end-of-line leaves `c`
as the pending token to complete, with `echo` and the quoted `a b` as the
two prior fragments; and from any scanner state with an open quote, a
space character is pushed onto the pending token and emits no fragment. -/
theorem C7_quoted_tokenization :
    tokenizeChars "echo \"a b\" c".toList
      = ([['e', 'c', 'h', 'o'], ['"', 'a', ' ', 'b', '"']], ['c'])
    ∧ (∀ (fr : List (List Char)) (stk : List Char),
        tokStep ⟨fr, stk, '"'⟩ ' ' = ⟨fr, stk ++ [' '], '"'⟩)
    ∧ (∀ (fr : List (List Char)) (stk : List Char),
        tokStep ⟨fr, stk, '\''⟩ ' ' = ⟨fr, stk ++ [' '], '\''⟩) := by
  refine ⟨by decide, fun fr stk => ?_, fun fr stk => ?_⟩ <;> rfl

/-- A concrete instance of the external parser contract of §6: a line
containing a pipe character fails to parse, anything else parses to the
empty pipeline list. -/
def parseStub : String → Except Unit (List Pipeline) :=
  fun s => if s.data.contains '|' then .error () else .ok []

/-- C1 (amended): when the external parser returns a parse error for a
submitted line that is not all spaces, `Shell::exec_commands_in_line`
panics on the `Parser::parse(..).unwrap()` at src/src/shell/mod.rs:120,
terminating the session instead of reporting the error and continuing;
the line is not executed, and the history recording — which precedes the
parse attempt — has already taken place. -/
theorem C1_parse_error_panics_session
    (parse : String → Except Unit (List Pipeline)) (cwd : String)
    (st : List (List UInt8) × List UInt8) (cmd : List UInt8)
    (chars : List Char) (e : Unit)
    (hdec : decodeUtf8 cmd = some chars)
    (herr : parse (String.mk chars) = .error e)
    (hsp : cmd.all (fun b => b == 32) = false) :
    execIteration parse cwd st cmd = .panicParse (recordStep st cmd)
    ∧ sessionContinues (execIteration parse cwd st cmd) = false := by
  have h1 : execIteration parse cwd st cmd = .panicParse (recordStep st cmd) := by
    unfold execIteration exec_commands_in_line
    rw [hdec]
    simp [hsp, herr]
  exact ⟨h1, by rw [h1]; rfl⟩

/-- C1 instantiated: submitting `x|` under a parser that rejects pipes
panics the iteration after recording the line. -/
theorem C1_parse_error_witness :
    execIteration parseStub "/" ([], []) [120, 124]
      = .panicParse (recordStep ([], []) [120, 124])
    ∧ sessionContinues (execIteration parseStub "/" ([], []) [120, 124])
      = false :=
  C1_parse_error_panics_session parseStub "/" ([], []) [120, 124]
    ['x', '|'] () (by decide) (by rfl) (by decide)

/-- C1 (counterexample): with a parser that rejects `|`, submitting the
single byte `|` ends the exec-loop iteration in the parse-error panic —
`sessionContinues` is false, refuting the claim that the error is
reported and the editor loop continues to the next prompt. The line was
recorded (before the parse attempt) and was not executed. -/
theorem C1_parse_error_cex :
    execIteration parseStub "/" ([], []) [124]
      = .panicParse ([[124]], [124, 10])
    ∧ sessionContinues (execIteration parseStub "/" ([], []) [124])
      = false := by
  exact ⟨by rfl, by rfl⟩

/-- A panicked backend worker thread stays panicked and untouched for any
number of further loop iterations. -/
theorem workerRunSteps_panicked (chdirOk : String → Bool) (n : Nat)
    (inbox : List (String × List Pipeline)) (outbox : List Nat) :
    workerRunSteps chdirOk n ⟨inbox, outbox, .panicked⟩
      = ⟨inbox, outbox, .panicked⟩ := by
  induction n with
  | zero => rfl
  | succ m ih => simpa [workerRunSteps, workerStep] using ih

/-- C2 (amended): when changing directory fails for a received request,
the `set_current_dir(dir).expect(..)` at src/src/shell/mod.rs:61 panics
the backend worker thread: the request is abandoned, and — contrary to a
worker that survives and keeps looping — the thread is dead, so no
pipeline of any subsequent request is ever executed, no matter how many
further loop iterations elapse. -/
theorem C2_chdir_failure_kills_worker (chdirOk : String → Bool)
    (req : String × List Pipeline) (rest : List (String × List Pipeline))
    (outbox : List Nat) (n : Nat) (hfail : chdirOk req.1 = false) :
    workerRunSteps chdirOk (n + 1) ⟨req :: rest, outbox, .running⟩
      = ⟨rest, outbox, .panicked⟩ := by
  have h1 : workerStep chdirOk ⟨req :: rest, outbox, .running⟩
      = ⟨rest, outbox, .panicked⟩ := by
    simp [workerStep, hfail]
  calc workerRunSteps chdirOk (n + 1) ⟨req :: rest, outbox, .running⟩
      = workerRunSteps chdirOk n
          (workerStep chdirOk ⟨req :: rest, outbox, .running⟩) := rfl
    _ = workerRunSteps chdirOk n ⟨rest, outbox, .panicked⟩ := by rw [h1]
    _ = ⟨rest, outbox, .panicked⟩ :=
        workerRunSteps_panicked chdirOk n rest outbox

/-- C2 instantiated: a worker whose first request names an unreachable
directory panics with the second request still unprocessed. -/
theorem C2_chdir_failure_witness :
    workerRunSteps (fun d => !(d == "bad")) 3
      ⟨[("bad", []), ("ok", [⟨1, true, [7]⟩])], [], .running⟩
      = ⟨[("ok", [⟨1, true, [7]⟩])], [], .panicked⟩ :=
  C2_chdir_failure_kills_worker (fun d => !(d == "bad")) ("bad", [])
    [("ok", [⟨1, true, [7]⟩])] [] 2 (by decide)

/-- C2 (counterexample): requests `(/gone, [])` then `(/tmp, [pipeline
spawning child 9])` with a directory change that fails for `/gone`: after
any number of worker iterations the thread is panicked, child 9 was never
spawned (empty outbox) and the second request was never received —
refuting the claim that the worker survives and continues processing
subsequent requests. -/
theorem C2_chdir_failure_cex :
    workerRunSteps (fun d => d == "/tmp") 4
      ⟨[("/gone", []), ("/tmp", [⟨2, true, [9]⟩])], [], .running⟩
      = ⟨[("/tmp", [⟨2, true, [9]⟩])], [], .panicked⟩ := by decide

/-- C6 (amended): when Tab completion of a first token yields exactly one
candidate, the original token is removed from the buffer and the
completed text inserted at the cursor; with a command table containing
`cd`, `echo` and `exit`, typing `ec` then Tab leaves the buffer
containing `echo` — the completed command name with no trailing space
appended, since `complete_command` candidates are the registered names
themselves. -/
theorem C6_unique_completion_inserts_candidate :
    readlineStep ["cd", "echo", "exit"] (fun _ => none)
      ⟨[[101, 99]], 0, 2, [0], 0⟩ [9]
      = .cont ⟨[[101, 99, 104, 111]], 0, 4, [0], 0⟩ []
    ∧ complete_command ["cd", "echo", "exit"] "ec" = ("", ["echo"]) := by
  exact ⟨by decide, by decide⟩

/-- C6 (counterexample): the claim's scenario predicts buffer `echo `
(with a trailing space, five bytes) after completing `ec`; the code
yields the four-byte buffer `echo` with the cursor at 4, not the
predicted state. -/
theorem C6_no_trailing_space_cex :
    decide (readlineStep ["cd", "echo", "exit"] (fun _ => none)
        ⟨[[101, 99]], 0, 2, [0], 0⟩ [9]
      = RLStep.cont ⟨[[101, 99, 104, 111, 32]], 0, 5, [0], 0⟩ []) = false
    ∧ bufGet ⟨[[101, 99, 104, 111]], 0, 4, [0], 0⟩ ≠ utf8Bytes "echo ".toList := by
  exact ⟨by decide, by decide⟩

/-- C10: a byte that is no recognized control and not in 1..=31 is
inserted into the buffer as printable — including bytes ≥ 128 — so
submittable byte sequences exist whose content is not valid UTF-8:
submitting the lone byte 0xFF (typed, then LF) hands `[0xFF]` to
`exec_commands_in_line`, whose `String::from_utf8(..).unwrap()`
(src/src/shell/mod.rs:119) panics; and pressing Tab with that buffer
panics on the same conversion of the buffer prefix
(src/src/shell/mod.rs:268). -/
theorem C10_invalid_utf8_unwrap_panics :
    specialOf 255 = none
    ∧ readlineStep [] (fun _ => none) (readlineInit ⟨[[]], 0, 0, [], 0⟩)
        [255] = .cont ⟨[[255]], 0, 1, [0], 0⟩ []
    ∧ readlineRun [] (fun _ => none) 4 (readlineInit ⟨[[]], 0, 0, [], 0⟩)
        [255, 10] = some (1, ⟨[[255]], 0, 1, [], 0⟩, [])
    ∧ decodeUtf8 [255] = none
    ∧ (∀ (parse : String → Except Unit (List Pipeline)) (cwd : String),
        exec_commands_in_line parse cwd [255] = .panicUtf8)
    ∧ readlineStep [] (fun _ => none) ⟨[[255]], 0, 1, [0], 0⟩ [9]
        = .panic := by
  refine ⟨by decide, by decide, by decide, by decide, fun parse cwd => rfl,
    by decide⟩

/-- C3 (amended): when the buffer content up to the cursor decodes as
UTF-8, is neither empty nor all spaces, and tokenizes to an empty final
stack (it ends in an unquoted separating space with nothing pending),
pressing Tab does NOT merely abort the completion attempt:
`Shell::readline` executes `return 1` (src/src/shell/mod.rs:308) — not a
panic, and the editor state is untouched (in particular the sentinel is
not popped) — but the read of the current line ends there and the line is
submitted as-is instead of continuing to accept input. -/
theorem C3_tab_empty_stack_returns (table : List String)
    (readDir : String → Option (List (String × Bool))) (st : RState)
    (rest : List UInt8) (chars : List Char)
    (hdec : decodeUtf8 ((bufGet st).take st.cursor) = some chars)
    (hne : (((bufGet st).take st.cursor).isEmpty
        || ((bufGet st).take st.cursor).all (fun b => b == 32)) = false)
    (hstk : (tokenizeChars chars).2.isEmpty = true) :
    readlineStep table readDir st (9 :: rest) = .ret 1 st rest := by
  show tabStep table readDir st rest = .ret 1 st rest
  simp [tabStep, hdec, hne, hstk]

/-- C3 instantiated: buffer `echo ` (trailing unquoted space), cursor at
the end, next input `x`: Tab makes `readline` return 1 with the state
unchanged and the `x` unread. -/
theorem C3_tab_empty_stack_witness :
    readlineStep [] (fun _ => none)
      ⟨[[101, 99, 104, 111, 32]], 0, 5, [0], 0⟩ [9, 120]
      = .ret 1 ⟨[[101, 99, 104, 111, 32]], 0, 5, [0], 0⟩ [120] :=
  C3_tab_empty_stack_returns [] (fun _ => none)
    ⟨[[101, 99, 104, 111, 32]], 0, 5, [0], 0⟩ [120]
    ['e', 'c', 'h', 'o', ' '] (by decide) (by decide) (by decide)

/-- C3 (counterexample): a full `readline` session typing `echo `, Tab,
then `x`: the run returns 1 at the Tab with the byte `x` left unconsumed
and the buffer still `echo ` — the line-reading loop did not continue
accepting input for the same line, refuting the claim that the aborted
completion has no effect on the read. -/
theorem C3_tab_empty_stack_cex :
    readlineRun [] (fun _ => none) 8 (readlineInit ⟨[[]], 0, 0, [], 0⟩)
      [101, 99, 104, 111, 32, 9, 120]
      = some (1, ⟨[[101, 99, 104, 111, 32]], 0, 5, [0], 0⟩, [120]) := by
  decide

/-- C4 (amended): `readline` pushes exactly one sentinel — the live
buffer cell itself — onto the history list when the read starts, and pops
it on the LF/CR submit paths; but the claim's "popped on every path by
which readline returns" fails: on the Tab path with an empty final
tokenizer stack, `readline` returns 1 without popping (last conjunct, a
returning Tab step whose history — still holding the sentinel — is
unchanged). -/
theorem C4_sentinel_push_pop (st : RState) (table : List String)
    (readDir : String → Option (List (String × Bool))) (rest : List UInt8) :
    (readlineInit st).history = st.history ++ [st.bufRef]
    ∧ readlineStep table readDir st (10 :: rest)
        = .ret 1 { st with history := st.history.dropLast } rest
    ∧ readlineStep table readDir st (13 :: rest)
        = .ret 1 { st with history := st.history.dropLast } rest
    ∧ readlineStep [] (fun _ => none)
        ⟨[[101, 99, 104, 111, 32]], 0, 5, [0], 0⟩ [9]
        = .ret 1 ⟨[[101, 99, 104, 111, 32]], 0, 5, [0], 0⟩ [] := by
  refine ⟨rfl, rfl, rfl, by decide⟩

/-- C4 (counterexample): a full `readline` run — start of read pushes the
sentinel (cell 0, the live buffer), the user types `echo ` and presses
Tab — returns 1 while the history list still ends with the sentinel
reference: the pop promised on every return path did not happen. -/
theorem C4_sentinel_not_popped_cex :
    readlineRun [] (fun _ => none) 8 (readlineInit ⟨[[]], 0, 0, [], 0⟩)
      [101, 99, 104, 111, 32, 9]
      = some (1, ⟨[[101, 99, 104, 111, 32]], 0, 5, [0], 0⟩, [])
    ∧ (RState.mk [[101, 99, 104, 111, 32]] 0 5 [0] 0).history
        = [(RState.mk [[101, 99, 104, 111, 32]] 0 5 [0] 0).bufRef] := by
  exact ⟨by decide, rfl⟩

/-- Three bytes collected after an escape can never still extend to a
known function-key suffix: the sub-read predicate is false. -/
theorem srm_false_of_three (keys : List UInt8) (h : 3 ≤ keys.length) :
    should_read_more keys = false := by
  match keys with
  | a :: b :: c :: tl =>
    cases tl with
    | nil =>
      by_cases ha : a = 91
      · by_cases hb : b = 51
        · by_cases hc : c = 126
          · subst ha hb hc
            decide
          · simp [should_read_more, suffixSeqs, listLeads, ha, hb, hc]
        · simp [should_read_more, suffixSeqs, listLeads, ha, hb]
      · simp [should_read_more, suffixSeqs, listLeads, ha]
    | cons d tl2 =>
      simp [should_read_more, suffixSeqs, listLeads]

/-- The escape sub-read is insensitive to its fuel once the fuel plus the
bytes already collected covers the bound 3 the suffix table imposes: the
loop provably needs no more iterations than that. -/
theorem readSuffixAux_fuel_stable : ∀ (n m : Nat) (keys input : List UInt8),
    3 ≤ n + keys.length → 3 ≤ m + keys.length →
    readSuffixAux n keys input = readSuffixAux m keys input := by
  intro n
  induction n with
  | zero =>
    intro m keys input hn hm
    have hs : should_read_more keys = false :=
      srm_false_of_three keys (by simpa using hn)
    cases m with
    | zero => rfl
    | succ m2 => simp [readSuffixAux, hs]
  | succ n2 ih =>
    intro m keys input hn hm
    by_cases hs : should_read_more keys = true
    · have hlen : keys.length < 3 := by
        by_contra hge
        rw [srm_false_of_three keys (by omega)] at hs
        exact absurd hs (by simp)
      cases m with
      | zero => omega
      | succ m2 =>
        simp only [readSuffixAux, hs, if_true]
        cases input with
        | nil => rfl
        | cons b rest =>
          exact ih m2 (keys ++ [b]) rest (by simp; omega) (by simp; omega)
    · have hs2 : should_read_more keys = false := by simpa using hs
      cases m with
      | zero => simp [readSuffixAux, hs2]
      | succ m2 => simp [readSuffixAux, hs2]

/-- A completed escape sub-read collected at most 3 suffix bytes beyond
what it started with (bounded by the longest known suffix). -/
theorem readSuffixAux_len : ∀ (fuel : Nat) (keys input ks rest : List UInt8),
    keys.length ≤ 3 → readSuffixAux fuel keys input = some (ks, rest) →
    ks.length ≤ 3 := by
  intro fuel
  induction fuel with
  | zero =>
    intro keys input ks rest hk h
    unfold readSuffixAux at h
    by_cases hs : should_read_more keys = true
    · simp [hs] at h
    · simp [hs] at h
      rw [← h.1]
      exact hk
  | succ f ih =>
    intro keys input ks rest hk h
    unfold readSuffixAux at h
    by_cases hs : should_read_more keys = true
    · rw [if_pos hs] at h
      cases input with
      | nil => cases h
      | cons b r2 =>
        have hlen : keys.length < 3 := by
          by_contra hge
          rw [srm_false_of_three keys (by omega)] at hs
          exact absurd hs (by simp)
        exact ih (keys ++ [b]) r2 ks rest (by simp; omega) h
    · rw [if_neg hs] at h
      cases h
      exact hk

/-- C8: the escape sub-read of `Shell::handle_funckey` terminates within
a bounded number of bytes on every input: the could-still-match predicate
is false once three bytes are collected, fuel beyond the bound 4 never
changes the sub-read's result (the loop terminates within the bound), and
a completed sub-read holds at most 3 bytes; a collected sequence that
resolves to no known function key (`Unknown`) makes `handle_funckey`
return with the editor state unchanged — a no-op, not a panic. -/
theorem C8_escape_subread_bounded_noop :
    (∀ keys : List UInt8, 3 ≤ keys.length → should_read_more keys = false)
    ∧ (∀ (n m : Nat) (keys input : List UInt8), 3 ≤ n + keys.length →
        3 ≤ m + keys.length →
        readSuffixAux n keys input = readSuffixAux m keys input)
    ∧ (∀ (input ks rest : List UInt8),
        readSuffixAux 4 [] input = some (ks, rest) → ks.length ≤ 3)
    ∧ (∀ (st : RState) (input ks rest : List UInt8),
        readSuffixAux 4 [] input = some (ks, rest) →
        tryFromSuffix ks = none → handleFunckeyStep st input = .cont st rest) :=
  ⟨srm_false_of_three, readSuffixAux_fuel_stable,
   fun input ks rest h => readSuffixAux_len 4 [] input ks rest (by simp) h,
   fun st input ks rest h hn => by simp [handleFunckeyStep, h, hn]⟩

/-- C8 instantiated: the predicate stops at the three-byte suffix `[3~`;
fuel 9 and fuel 4 agree on an adversarial input; and the unknown escape
sequence `ESC Z` is a no-op on the editor state. -/
theorem C8_escape_subread_witness :
    should_read_more [91, 51, 126] = false
    ∧ readSuffixAux 9 [] [90, 1, 2] = readSuffixAux 4 [] [90, 1, 2]
    ∧ handleFunckeyStep ⟨[[]], 0, 0, [], 0⟩ [90]
        = .cont ⟨[[]], 0, 0, [], 0⟩ [] :=
  ⟨C8_escape_subread_bounded_noop.1 [91, 51, 126] (by decide),
   C8_escape_subread_bounded_noop.2.1 9 4 [] [90, 1, 2] (by decide) (by decide),
   C8_escape_subread_bounded_noop.2.2.2 ⟨[[]], 0, 0, [], 0⟩ [90] [90] []
     (by decide) (by decide)⟩

/-- `Shell::handle_funckey` never returns from `readline`: its step is a
continue (or blocks for input), never a return value. -/
theorem handleFunckeyStep_no_ret (st : RState) (input : List UInt8)
    (n : Nat) (s : RState) (r : List UInt8) :
    handleFunckeyStep st input ≠ .ret n s r := by
  unfold handleFunckeyStep
  cases h : readSuffixAux 4 [] input with
  | none => simp
  | some kr => cases h2 : tryFromSuffix kr.1 <;> simp [h2]

/-- Every value the Tab branch returns from `readline` is 1 (its single
`return` site is `return 1`). -/
theorem tabStep_ret_one (table : List String)
    (readDir : String → Option (List (String × Bool))) (st : RState)
    (rest : List UInt8) (n : Nat) (s : RState) (r : List UInt8)
    (h : tabStep table readDir st rest = .ret n s r) : n = 1 := by
  simp only [tabStep] at h
  repeat' split at h
  all_goals simp_all

/-- Every value `Shell::readline`'s loop body returns is 1: the LF/CR arm
returns 1 and the Tab arm's empty-stack escape returns 1. -/
theorem readlineStep_ret_one (table : List String)
    (readDir : String → Option (List (String × Bool))) (st : RState)
    (input : List UInt8) (n : Nat) (s : RState) (r : List UInt8)
    (h : readlineStep table readDir st input = .ret n s r) : n = 1 := by
  cases input with
  | nil => exact absurd h (by simp [readlineStep])
  | cons key rest =>
    simp only [readlineStep] at h
    split at h
    · exact absurd h (handleFunckeyStep_no_ret st rest n s r)
    · injection h with h1 h2 h3
      exact h1.symm
    · injection h with h1 h2 h3
      exact h1.symm
    · exact absurd h (by simp)
    · exact tabStep_ret_one table readDir st rest n s r h
    · split at h <;> simp_all

/-- Whenever a `readline` run returns, the returned value is 1. -/
theorem readlineRun_ret_one (table : List String)
    (readDir : String → Option (List (String × Bool))) :
    ∀ (fuel : Nat) (st : RState) (input : List UInt8) (n : Nat) (s : RState)
      (r : List UInt8),
      readlineRun table readDir fuel st input = some (n, s, r) → n = 1 := by
  intro fuel
  induction fuel with
  | zero =>
    intro st input n s r h
    exact absurd h (by simp [readlineRun])
  | succ f ih =>
    intro st input n s r h
    simp only [readlineRun] at h
    split at h
    · rename_i n2 s2 r2 heq
      injection h with h1
      injection h1 with ha hb
      injection hb with hs2 hr2
      subst ha
      exact readlineStep_ret_one table readDir st input n2 s2 r2 heq
    · rename_i s2 r2 heq
      exact ih s2 r2 n s r h
    · exact absurd h (by simp)
    · exact absurd h (by simp)

/-- C9: for every input, whenever `Shell::readline` returns it returns 1
and never 0 — its two return sites (src/src/shell/mod.rs:258 and :308)
both `return 1` — so the `if self.readline() == 0 { break }` branch of
`Shell::exec` (src/src/shell/mod.rs:88-91) is unreachable and the read
loop never terminates through end-of-input. -/
theorem C9_readline_never_returns_zero (table : List String)
    (readDir : String → Option (List (String × Bool))) (fuel : Nat)
    (st : RState) (input : List UInt8) (n : Nat) (s : RState)
    (r : List UInt8)
    (h : readlineRun table readDir fuel st input = some (n, s, r)) :
    n = 1 ∧ decide (n = 0) = false := by
  have h1 := readlineRun_ret_one table readDir fuel st input n s r h
  subst h1
  exact ⟨rfl, rfl⟩

/-- C9 instantiated: a one-keystroke read (LF) returns, and the returned
value is 1, not 0. -/
theorem C9_readline_returns_one_witness :
    (1 : Nat) = 1 ∧ decide ((1 : Nat) = 0) = false :=
  C9_readline_never_returns_zero [] (fun _ => none) 2 ⟨[[]], 0, 0, [], 0⟩
    [10] 1 ⟨[[]], 0, 0, [], 0⟩ [] (by decide)
